import Mathlib

/-!
Verification of the SimpleBoxing reflex-trial engine (src/app.js).

The embedding models the class SimpleBoxing: its constructor fields become
the structure BoxState, the method velocity becomes SimpleBoxing.velocity,
the method update is split into the landmark-processing half (velState and
frameMaxV, lines 94-109 of the source) and the state-machine half (step,
lines 111-188), composed in SimpleBoxing.update exactly as the source runs
them.  JS numbers are modelled as real numbers; Math.random() is modelled
as an explicit input u to update (consumed only where the source calls
randDelay); performance.now() is modelled as the explicit input now.
-/

namespace SimpleBoxing

/-- A landmark point: normalized image coordinates plus relative depth. -/
structure Point where
  x : ℝ
  y : ℝ
  z : ℝ

/-- The return value of SimpleBoxing.velocity: the smoothed speed v and the
position pos to store as the new previous position. -/
structure VelRes where
  v : ℝ
  pos : Point

/-- The smoothing factor this.ALPHA = 0.5. -/
def ALPHA : ℝ := 0.5

/-- The calibration sample count this.NOISE_FRAMES = 30. -/
def NOISE_FRAMES : ℕ := 30

/-- The adaptive threshold factor this.START_FACTOR = 3. -/
def START_FACTOR : ℝ := 3

/-- The debounce count this.CONSEC_FRAMES = 2. -/
def CONSEC_FRAMES : ℕ := 2

/-- The threshold floor this.MIN_START_VEL = 0.03. -/
def MIN_START_VEL : ℝ := 0.03

/-- The trial phases of this.state. -/
inductive Phase where
  | INIT
  | CALM
  | WAIT
  | SIGNAL
  | MOVING
  | RESULT
deriving DecidableEq

/-- The mutable fields of the SimpleBoxing instance, in constructor order. -/
structure BoxState where
  state : Phase
  signalTime : ℝ
  moveStartTime : ℝ
  reactionTime : ℝ
  peakSpeed : ℝ
  prevR : Option Point
  prevL : Option Point
  smoothR : ℝ
  smoothL : ℝ
  noiseSamples : List ℝ
  noiseLevel : ℝ
  moveCounter : ℕ
  lastTime : ℝ
  waitStart : ℝ
  delay : ℝ

/-- randDelay(): 2000 + Math.random() * 2000, with the Math.random() draw
u passed in explicitly. -/
def randDelay (u : ℝ) : ℝ := 2000 + u * 2000

/-- dist(a, b): Euclidean distance in the 3-D normalized coordinate space. -/
noncomputable def dist (a b : Point) : ℝ :=
  Real.sqrt ((a.x - b.x) * (a.x - b.x) + (a.y - b.y) * (a.y - b.y) +
    (a.z - b.z) * (a.z - b.z))

/-- velocity(curr, prev, prevSmooth, dt): speed 0 with the position stored
when there is no previous sample or dt is not positive, otherwise the
exponentially smoothed distance-over-time. -/
noncomputable def velocity (curr : Point) (prev : Option Point)
    (prevSmooth dt : ℝ) : VelRes :=
  match prev with
  | none => ⟨0, curr⟩
  | some p =>
      if dt ≤ 0 then ⟨0, curr⟩
      else ⟨ALPHA * (dist curr p / dt) + (1 - ALPHA) * prevSmooth, curr⟩

/-- reset(): re-enter CALM, clearing the noise buffer, the onset counter,
the stored previous positions and the smoothing history. -/
def reset (s : BoxState) : BoxState :=
  { s with
    state := Phase.CALM
    noiseSamples := []
    moveCounter := 0
    prevR := none
    prevL := none
    smoothR := 0
    smoothL := 0 }

/-- The adaptive start threshold of the SIGNAL branch:
Math.max(noiseLevel * START_FACTOR, MIN_START_VEL). -/
def startThreshold (s : BoxState) : ℝ :=
  max (s.noiseLevel * START_FACTOR) MIN_START_VEL

/-- The state-machine half of update (the code below the maxV computation),
acting on the already landmark-updated state, given the per-frame signal
maxV, the clock reading now and the Math.random() draw u. -/
noncomputable def step (s : BoxState) (maxV now u : ℝ) : BoxState :=
  match s.state with
  | Phase.INIT =>
      { s with state := Phase.CALM, noiseSamples := [] }
  | Phase.CALM =>
      let ns := s.noiseSamples ++ [maxV]
      if ns.length ≥ NOISE_FRAMES then
        { s with
          noiseSamples := ns
          noiseLevel := ns.sum / (ns.length : ℝ)
          state := Phase.WAIT
          waitStart := now
          delay := randDelay u }
      else { s with noiseSamples := ns }
  | Phase.WAIT =>
      if now - s.waitStart > s.delay then
        { s with state := Phase.SIGNAL, signalTime := now, moveCounter := 0 }
      else s
  | Phase.SIGNAL =>
      let s2 :=
        if maxV > startThreshold s then { s with moveCounter := s.moveCounter + 1 }
        else { s with moveCounter := 0 }
      if s2.moveCounter ≥ CONSEC_FRAMES then
        { s2 with
          moveStartTime := now
          reactionTime := (now - s2.signalTime) / 1000
          peakSpeed := 0
          state := Phase.MOVING }
      else s2
  | Phase.MOVING =>
      let s2 := { s with peakSpeed := max s.peakSpeed maxV }
      if now - s2.moveStartTime > 1000 then { s2 with state := Phase.RESULT }
      else s2
  | Phase.RESULT =>
      if now - s.moveStartTime > 3000 then reset s else s

/-- The right-wrist velocity result of one update: lm[15] against prevR. -/
noncomputable def frameR (s : BoxState) (lm : ℕ → Point) (now : ℝ) : VelRes :=
  velocity (lm 15) s.prevR s.smoothR ((now - s.lastTime) / 1000)

/-- The left-wrist velocity result of one update: lm[16] against prevL. -/
noncomputable def frameL (s : BoxState) (lm : ℕ → Point) (now : ℝ) : VelRes :=
  velocity (lm 16) s.prevL s.smoothL ((now - s.lastTime) / 1000)

/-- The per-frame instantaneous signal: Math.max(this.smoothR, this.smoothL)
right after both assignments, hence the max of the two fresh velocities. -/
noncomputable def frameMaxV (s : BoxState) (lm : ℕ → Point) (now : ℝ) : ℝ :=
  max (frameR s lm now).v (frameL s lm now).v

/-- The landmark-processing half of update: store now as lastTime, the fresh
smoothed speeds and the fresh previous positions. -/
noncomputable def velState (s : BoxState) (lm : ℕ → Point) (now : ℝ) : BoxState :=
  { s with
    lastTime := now
    smoothR := (frameR s lm now).v
    smoothL := (frameL s lm now).v
    prevR := some (frameR s lm now).pos
    prevL := some (frameL s lm now).pos }

/-- update(lm) at clock reading now with Math.random() draw u: landmark
processing followed by the state machine on the per-frame signal. -/
noncomputable def update (s : BoxState) (lm : ℕ → Point) (now u : ℝ) : BoxState :=
  step (velState s lm now) (frameMaxV s lm now) now u

/-- The constructor state, at construction clock reading t0 with
Math.random() draw u0. -/
def initState (t0 u0 : ℝ) : BoxState :=
  { state := Phase.INIT
    signalTime := 0
    moveStartTime := 0
    reactionTime := 0
    peakSpeed := 0
    prevR := none
    prevL := none
    smoothR := 0
    smoothL := 0
    noiseSamples := []
    noiseLevel := 0
    moveCounter := 0
    lastTime := t0
    waitStart := t0
    delay := randDelay u0 }

/-- Iterating the state-machine half over a list of (maxV, now, u) inputs. -/
noncomputable def stepTrace (s : BoxState) (inputs : List (ℝ × ℝ × ℝ)) : BoxState :=
  inputs.foldl (fun t x => step t x.1 x.2.1 x.2.2) s

/-- The designated successor of each phase: the forward chain
INIT, CALM, WAIT, SIGNAL, MOVING, RESULT with the RESULT loop-back to CALM. -/
def nextPhase : Phase → Phase
  | Phase.INIT => Phase.CALM
  | Phase.CALM => Phase.WAIT
  | Phase.WAIT => Phase.SIGNAL
  | Phase.SIGNAL => Phase.MOVING
  | Phase.MOVING => Phase.RESULT
  | Phase.RESULT => Phase.CALM

/-! ## Branch equations for velocity and step -/

lemma velocity_none (curr : Point) (ps dt : ℝ) :
    velocity curr none ps dt = ⟨0, curr⟩ := rfl

lemma velocity_some_nonpos (curr p : Point) (ps dt : ℝ) (h : dt ≤ 0) :
    velocity curr (some p) ps dt = ⟨0, curr⟩ := by
  simp [velocity, h]

lemma velocity_some_pos (curr p : Point) (ps dt : ℝ) (h : 0 < dt) :
    velocity curr (some p) ps dt =
      ⟨ALPHA * (dist curr p / dt) + (1 - ALPHA) * ps, curr⟩ := by
  simp [velocity, not_le.mpr h]

lemma step_init (s : BoxState) (maxV now u : ℝ) (h : s.state = Phase.INIT) :
    step s maxV now u = { s with state := Phase.CALM, noiseSamples := [] } := by
  rw [step, h]

lemma step_calm_full (s : BoxState) (maxV now u : ℝ) (h : s.state = Phase.CALM)
    (hlen : (s.noiseSamples ++ [maxV]).length ≥ NOISE_FRAMES) :
    step s maxV now u =
      { s with
        noiseSamples := s.noiseSamples ++ [maxV]
        noiseLevel := (s.noiseSamples ++ [maxV]).sum /
          (((s.noiseSamples ++ [maxV]).length : ℕ) : ℝ)
        state := Phase.WAIT
        waitStart := now
        delay := randDelay u } := by
  rw [step, h]
  simp only [if_pos hlen]

lemma step_calm_accum (s : BoxState) (maxV now u : ℝ) (h : s.state = Phase.CALM)
    (hlen : ¬ (s.noiseSamples ++ [maxV]).length ≥ NOISE_FRAMES) :
    step s maxV now u = { s with noiseSamples := s.noiseSamples ++ [maxV] } := by
  rw [step, h]
  simp only [if_neg hlen]

lemma step_wait_fire (s : BoxState) (maxV now u : ℝ) (h : s.state = Phase.WAIT)
    (ht : now - s.waitStart > s.delay) :
    step s maxV now u =
      { s with state := Phase.SIGNAL, signalTime := now, moveCounter := 0 } := by
  rw [step, h]
  simp only [if_pos ht]

lemma step_wait_hold (s : BoxState) (maxV now u : ℝ) (h : s.state = Phase.WAIT)
    (ht : ¬ now - s.waitStart > s.delay) :
    step s maxV now u = s := by
  rw [step, h]
  simp only [if_neg ht]

lemma step_signal_above_fire (s : BoxState) (maxV now u : ℝ)
    (h : s.state = Phase.SIGNAL) (ha : maxV > startThreshold s)
    (hc : s.moveCounter + 1 ≥ CONSEC_FRAMES) :
    step s maxV now u =
      { s with
        moveCounter := s.moveCounter + 1
        moveStartTime := now
        reactionTime := (now - s.signalTime) / 1000
        peakSpeed := 0
        state := Phase.MOVING } := by
  rw [step, h]
  simp only [if_pos ha, if_pos hc]

lemma step_signal_above_hold (s : BoxState) (maxV now u : ℝ)
    (h : s.state = Phase.SIGNAL) (ha : maxV > startThreshold s)
    (hc : ¬ s.moveCounter + 1 ≥ CONSEC_FRAMES) :
    step s maxV now u = { s with moveCounter := s.moveCounter + 1 } := by
  rw [step, h]
  simp only [if_pos ha, if_neg hc]

lemma step_signal_below (s : BoxState) (maxV now u : ℝ)
    (h : s.state = Phase.SIGNAL) (ha : ¬ maxV > startThreshold s) :
    step s maxV now u = { s with moveCounter := 0 } := by
  rw [step, h]
  have hc : ¬ (0 : ℕ) ≥ CONSEC_FRAMES := by decide
  simp only [if_neg ha, if_neg hc]

lemma step_moving_to_result (s : BoxState) (maxV now u : ℝ)
    (h : s.state = Phase.MOVING) (ht : now - s.moveStartTime > 1000) :
    step s maxV now u =
      { s with peakSpeed := max s.peakSpeed maxV, state := Phase.RESULT } := by
  rw [step, h]
  simp only [if_pos ht]

lemma step_moving_hold (s : BoxState) (maxV now u : ℝ)
    (h : s.state = Phase.MOVING) (ht : ¬ now - s.moveStartTime > 1000) :
    step s maxV now u = { s with peakSpeed := max s.peakSpeed maxV } := by
  rw [step, h]
  simp only [if_neg ht]

lemma step_result_reset (s : BoxState) (maxV now u : ℝ)
    (h : s.state = Phase.RESULT) (ht : now - s.moveStartTime > 3000) :
    step s maxV now u = reset s := by
  rw [step, h]
  simp only [if_pos ht]

lemma step_result_hold (s : BoxState) (maxV now u : ℝ)
    (h : s.state = Phase.RESULT) (ht : ¬ now - s.moveStartTime > 3000) :
    step s maxV now u = s := by
  rw [step, h]
  simp only [if_neg ht]

lemma stepTrace_nil (s : BoxState) : stepTrace s [] = s := rfl

lemma stepTrace_cons (s : BoxState) (x : ℝ × ℝ × ℝ) (xs : List (ℝ × ℝ × ℝ)) :
    stepTrace s (x :: xs) = stepTrace (step s x.1 x.2.1 x.2.2) xs := rfl

lemma stepTrace_append (s : BoxState) (xs ys : List (ℝ × ℝ × ℝ)) :
    stepTrace s (xs ++ ys) = stepTrace (stepTrace s xs) ys := by
  simp [stepTrace]

/-- A run of above-threshold SIGNAL frames too short to fire only advances
the counter: the state is otherwise untouched. -/
lemma stepTrace_signal_run (inputs : List (ℝ × ℝ × ℝ)) (s : BoxState)
    (hs : s.state = Phase.SIGNAL)
    (hall : ∀ x ∈ inputs, x.1 > startThreshold s)
    (hlen : s.moveCounter + inputs.length < CONSEC_FRAMES) :
    stepTrace s inputs = { s with moveCounter := s.moveCounter + inputs.length } := by
  induction inputs generalizing s with
  | nil => simp [stepTrace_nil]
  | cons x xs ih =>
      have hx : x.1 > startThreshold s := hall x (List.mem_cons_self x xs)
      have hc : ¬ s.moveCounter + 1 ≥ CONSEC_FRAMES := by
        simp only [List.length_cons] at hlen
        omega
      rw [stepTrace_cons, step_signal_above_hold s x.1 x.2.1 x.2.2 hs hx hc]
      have hall' : ∀ y ∈ xs, y.1 > startThreshold { s with moveCounter := s.moveCounter + 1 } :=
        fun y hy => hall y (List.mem_cons_of_mem x hy)
      have hlen' : ({ s with moveCounter := s.moveCounter + 1 } :
          BoxState).moveCounter + xs.length < CONSEC_FRAMES := by
        simp only [List.length_cons] at hlen
        simp only []
        omega
      rw [ih { s with moveCounter := s.moveCounter + 1 } hs hall' hlen']
      simp only [List.length_cons]
      congr 1
      omega

/-! ## Concrete states for witnesses and counterexamples -/

/-- A SIGNAL-phase state with calibrated noise level 0 and counter 0. -/
noncomputable def sigState0 : BoxState :=
  { state := Phase.SIGNAL
    signalTime := 0
    moveStartTime := 0
    reactionTime := 0
    peakSpeed := 0
    prevR := none
    prevL := none
    smoothR := 0
    smoothL := 0
    noiseSamples := []
    noiseLevel := 0
    moveCounter := 0
    lastTime := 0
    waitStart := 0
    delay := 2000 }

/-- The origin landmark point. -/
noncomputable def pt0 : Point := ⟨0, 0, 0⟩

/-- A landmark point displaced by 2 along x. -/
noncomputable def pt2 : Point := ⟨2, 0, 0⟩

/-- A frame with every landmark at the origin. -/
noncomputable def lmA : ℕ → Point := fun _ => pt0

/-- A frame with the right wrist (index 15) displaced and every other
landmark at the origin. -/
noncomputable def lmB : ℕ → Point := fun i => if i = 15 then pt2 else pt0

/-- A CALM-phase state with an empty noise buffer. -/
noncomputable def calmState0 : BoxState := { sigState0 with state := Phase.CALM }

/-- A CALM-phase state holding 29 zero noise samples. -/
noncomputable def calmState29 : BoxState :=
  { sigState0 with state := Phase.CALM, noiseSamples := List.replicate 29 0 }

/-- A WAIT-phase state with waitStart 0 and delay 2000. -/
noncomputable def waitStateB : BoxState := { sigState0 with state := Phase.WAIT }

/-- A RESULT-phase state carrying the finished trial's peakSpeed 5 and
reactionTime 7. -/
noncomputable def resultStateP : BoxState :=
  { sigState0 with state := Phase.RESULT, peakSpeed := 5, reactionTime := 7 }

/-- A SIGNAL-phase state one above-threshold frame away from onset: counter
already 1, right wrist previously seen at the origin. -/
noncomputable def sigStateM : BoxState :=
  { sigState0 with prevR := some pt0, moveCounter := 1 }

/-- The squared displacement between pt2 and pt0 is 4, so their distance
is 2. -/
lemma dist_pt2_pt0 : dist pt2 pt0 = 2 := by
  have h4 : (pt2.x - pt0.x) * (pt2.x - pt0.x) + (pt2.y - pt0.y) * (pt2.y - pt0.y) +
      (pt2.z - pt0.z) * (pt2.z - pt0.z) = 4 := by
    norm_num [pt2, pt0]
  rw [dist, h4, show (4 : ℝ) = 2 ^ 2 by norm_num,
    Real.sqrt_sq (by norm_num : (0 : ℝ) ≤ 2)]

/-- A point is at distance 0 from itself. -/
lemma dist_pt0_pt0 : dist pt0 pt0 = 0 := by
  have h0 : (pt0.x - pt0.x) * (pt0.x - pt0.x) + (pt0.y - pt0.y) * (pt0.y - pt0.y) +
      (pt0.z - pt0.z) * (pt0.z - pt0.z) = 0 := by
    norm_num [pt0]
  rw [dist, h0, Real.sqrt_zero]

/-! ## Claim theorems -/

/-- C1: in phase SIGNAL the machine uses the adaptive threshold
max(noiseLevel * START_FACTOR, MIN_START_VEL); each update above the
threshold increments the consecutive-frame counter, below it resets the
counter to 0, the transition to MOVING happens exactly when the counter
reaches CONSEC_FRAMES, and a run of fewer than CONSEC_FRAMES above-threshold
frames followed by one below-threshold frame stays in SIGNAL with the
counter at 0. -/
theorem signal_onset_debounce (s : BoxState) (maxV now u : ℝ)
    (hs : s.state = Phase.SIGNAL) :
    ((step s maxV now u).state = Phase.MOVING ↔
      maxV > startThreshold s ∧ CONSEC_FRAMES ≤ s.moveCounter + 1) ∧
    (maxV > startThreshold s → (step s maxV now u).moveCounter = s.moveCounter + 1) ∧
    (¬ maxV > startThreshold s →
      (step s maxV now u).moveCounter = 0 ∧ (step s maxV now u).state = Phase.SIGNAL) ∧
    (∀ pre : List (ℝ × ℝ × ℝ), ∀ b : ℝ × ℝ × ℝ,
      s.moveCounter = 0 → pre.length < CONSEC_FRAMES →
      (∀ x ∈ pre, x.1 > startThreshold s) → ¬ b.1 > startThreshold s →
      (stepTrace s (pre ++ [b])).state = Phase.SIGNAL ∧
      (stepTrace s (pre ++ [b])).moveCounter = 0) := by
  refine ⟨?_, ?_, ?_, ?_⟩
  · by_cases ha : maxV > startThreshold s
    · by_cases hc : s.moveCounter + 1 ≥ CONSEC_FRAMES
      · rw [step_signal_above_fire s maxV now u hs ha hc]
        simpa using ⟨ha, hc⟩
      · rw [step_signal_above_hold s maxV now u hs ha hc]
        simp only [ge_iff_le, not_le] at hc
        simp [hs, ha, hc]
    · rw [step_signal_below s maxV now u hs ha]
      simp [hs, ha]
  · intro ha
    by_cases hc : s.moveCounter + 1 ≥ CONSEC_FRAMES
    · rw [step_signal_above_fire s maxV now u hs ha hc]
    · rw [step_signal_above_hold s maxV now u hs ha hc]
  · intro ha
    rw [step_signal_below s maxV now u hs ha]
    exact ⟨rfl, hs⟩
  · intro pre b h0 hlen hall hb
    have hrun := stepTrace_signal_run pre s hs hall (by omega)
    rw [stepTrace_append, hrun]
    have hs' : ({ s with moveCounter := s.moveCounter + pre.length } :
        BoxState).state = Phase.SIGNAL := hs
    have hone : stepTrace { s with moveCounter := s.moveCounter + pre.length } [b] =
        step { s with moveCounter := s.moveCounter + pre.length } b.1 b.2.1 b.2.2 := rfl
    rw [hone, step_signal_below _ b.1 b.2.1 b.2.2 hs' hb]
    exact ⟨hs, rfl⟩

/-- C1 witness: in the concrete SIGNAL state with noise level 0, an
above-threshold frame of speed 1 increments the counter. -/
theorem signal_onset_debounce_witness :
    sigState0.state = Phase.SIGNAL ∧
    (step sigState0 1 100 0).moveCounter = sigState0.moveCounter + 1 :=
  ⟨rfl, (signal_onset_debounce sigState0 1 100 0 rfl).2.1 (by
    rw [gt_iff_lt]
    norm_num [startThreshold, sigState0, START_FACTOR, MIN_START_VEL, max_lt_iff])⟩

/-- C4: peakSpeed is reset to 0 at the SIGNAL-to-MOVING transition, is
updated to max(peakSpeed, speed) on every MOVING frame (hence non-decreasing
across consecutive MOVING frames), and is untouched in every other phase. -/
theorem peakSpeed_moving_monotone (s : BoxState) (maxV now u : ℝ) :
    (s.state = Phase.MOVING →
      (step s maxV now u).peakSpeed = max s.peakSpeed maxV ∧
      s.peakSpeed ≤ (step s maxV now u).peakSpeed) ∧
    (s.state = Phase.SIGNAL → maxV > startThreshold s →
      CONSEC_FRAMES ≤ s.moveCounter + 1 →
      (step s maxV now u).peakSpeed = 0 ∧ (step s maxV now u).state = Phase.MOVING) ∧
    (s.state = Phase.SIGNAL →
      ¬ (maxV > startThreshold s ∧ CONSEC_FRAMES ≤ s.moveCounter + 1) →
      (step s maxV now u).peakSpeed = s.peakSpeed) ∧
    (s.state = Phase.INIT ∨ s.state = Phase.CALM ∨ s.state = Phase.WAIT ∨
        s.state = Phase.RESULT →
      (step s maxV now u).peakSpeed = s.peakSpeed) := by
  refine ⟨?_, ?_, ?_, ?_⟩
  · intro hs
    by_cases ht : now - s.moveStartTime > 1000
    · rw [step_moving_to_result s maxV now u hs ht]
      exact ⟨rfl, le_max_left _ _⟩
    · rw [step_moving_hold s maxV now u hs ht]
      exact ⟨rfl, le_max_left _ _⟩
  · intro hs ha hc
    rw [step_signal_above_fire s maxV now u hs ha hc]
    exact ⟨rfl, rfl⟩
  · intro hs hnot
    by_cases ha : maxV > startThreshold s
    · have hc : ¬ s.moveCounter + 1 ≥ CONSEC_FRAMES := fun hc => hnot ⟨ha, hc⟩
      rw [step_signal_above_hold s maxV now u hs ha hc]
    · rw [step_signal_below s maxV now u hs ha]
  · rintro (hs | hs | hs | hs)
    · rw [step_init s maxV now u hs]
    · by_cases hlen : (s.noiseSamples ++ [maxV]).length ≥ NOISE_FRAMES
      · rw [step_calm_full s maxV now u hs hlen]
      · rw [step_calm_accum s maxV now u hs hlen]
    · by_cases ht : now - s.waitStart > s.delay
      · rw [step_wait_fire s maxV now u hs ht]
      · rw [step_wait_hold s maxV now u hs ht]
    · by_cases ht : now - s.moveStartTime > 3000
      · rw [step_result_reset s maxV now u hs ht]; rfl
      · rw [step_result_hold s maxV now u hs ht]

/-- C5: the motion estimator returns speed 0 and stores the current position
when the previous position is absent or dt is not positive; the result is a
fixed value of the function, hence deterministic. -/
theorem velocity_no_motion (curr p : Point) (prevSmooth dt : ℝ) :
    velocity curr none prevSmooth dt = ⟨0, curr⟩ ∧
    (dt ≤ 0 → velocity curr (some p) prevSmooth dt = ⟨0, curr⟩) :=
  ⟨velocity_none curr prevSmooth dt,
   fun h => velocity_some_nonpos curr p prevSmooth dt h⟩

/-- C6: with a previous position and positive dt the estimator returns the
exponentially smoothed Euclidean-distance-over-dt with ALPHA in (0, 1]; one
update runs the estimator independently on the two wrist landmarks lm[15]
and lm[16] and feeds the state machine max(speedLeft, speedRight). -/
theorem velocity_smoothing_and_max (curr p : Point) (prevSmooth dt : ℝ)
    (s : BoxState) (lm : ℕ → Point) (now u : ℝ) :
    (0 < dt → velocity curr (some p) prevSmooth dt =
      ⟨ALPHA * (dist curr p / dt) + (1 - ALPHA) * prevSmooth, curr⟩) ∧
    dist curr p = Real.sqrt ((curr.x - p.x) * (curr.x - p.x) +
      (curr.y - p.y) * (curr.y - p.y) + (curr.z - p.z) * (curr.z - p.z)) ∧
    0 < ALPHA ∧ ALPHA ≤ 1 ∧
    frameR s lm now = velocity (lm 15) s.prevR s.smoothR ((now - s.lastTime) / 1000) ∧
    frameL s lm now = velocity (lm 16) s.prevL s.smoothL ((now - s.lastTime) / 1000) ∧
    frameMaxV s lm now = max (frameR s lm now).v (frameL s lm now).v ∧
    update s lm now u = step (velState s lm now) (frameMaxV s lm now) now u := by
  refine ⟨fun h => velocity_some_pos curr p prevSmooth dt h, rfl, ?_, ?_, rfl, rfl, rfl, rfl⟩
  · norm_num [ALPHA]
  · norm_num [ALPHA]

/-- The state machine moves along the forward chain or stands still: one
step changes the phase at most to its designated successor. -/
lemma step_phase (s : BoxState) (maxV now u : ℝ) :
    (step s maxV now u).state = s.state ∨
    (step s maxV now u).state = nextPhase s.state := by
  cases hst : s.state
  case INIT =>
    rw [step_init s maxV now u hst]
    right; rfl
  case CALM =>
    by_cases hlen : (s.noiseSamples ++ [maxV]).length ≥ NOISE_FRAMES
    · rw [step_calm_full s maxV now u hst hlen]
      right; rfl
    · rw [step_calm_accum s maxV now u hst hlen]
      left; exact hst
  case WAIT =>
    by_cases ht : now - s.waitStart > s.delay
    · rw [step_wait_fire s maxV now u hst ht]
      right; rfl
    · rw [step_wait_hold s maxV now u hst ht]
      left; exact hst
  case SIGNAL =>
    by_cases ha : maxV > startThreshold s
    · by_cases hc : s.moveCounter + 1 ≥ CONSEC_FRAMES
      · rw [step_signal_above_fire s maxV now u hst ha hc]
        right; rfl
      · rw [step_signal_above_hold s maxV now u hst ha hc]
        left; exact hst
    · rw [step_signal_below s maxV now u hst ha]
      left; exact hst
  case MOVING =>
    by_cases ht : now - s.moveStartTime > 1000
    · rw [step_moving_to_result s maxV now u hst ht]
      right; rfl
    · rw [step_moving_hold s maxV now u hst ht]
      left; exact hst
  case RESULT =>
    by_cases ht : now - s.moveStartTime > 3000
    · rw [step_result_reset s maxV now u hst ht]
      right; rfl
    · rw [step_result_hold s maxV now u hst ht]
      left; exact hst

/-- C7: the phase is one of the six listed values, and one update either
keeps the phase or moves it to its designated successor along
INIT, CALM, WAIT, SIGNAL, MOVING, RESULT; the only backward edge of that
successor map is RESULT to CALM. -/
theorem phase_forward_transitions (s : BoxState) (lm : ℕ → Point)
    (now u : ℝ) (p : Phase) :
    ((update s lm now u).state = s.state ∨
     (update s lm now u).state = nextPhase s.state) ∧
    (p = Phase.INIT ∨ p = Phase.CALM ∨ p = Phase.WAIT ∨ p = Phase.SIGNAL ∨
     p = Phase.MOVING ∨ p = Phase.RESULT) ∧
    nextPhase Phase.INIT = Phase.CALM ∧ nextPhase Phase.CALM = Phase.WAIT ∧
    nextPhase Phase.WAIT = Phase.SIGNAL ∧ nextPhase Phase.SIGNAL = Phase.MOVING ∧
    nextPhase Phase.MOVING = Phase.RESULT ∧ nextPhase Phase.RESULT = Phase.CALM := by
  refine ⟨?_, ?_, rfl, rfl, rfl, rfl, rfl, rfl⟩
  · have h := step_phase (velState s lm now) (frameMaxV s lm now) now u
    exact h
  · cases p
    · exact Or.inl rfl
    · exact Or.inr (Or.inl rfl)
    · exact Or.inr (Or.inr (Or.inl rfl))
    · exact Or.inr (Or.inr (Or.inr (Or.inl rfl)))
    · exact Or.inr (Or.inr (Or.inr (Or.inr (Or.inl rfl))))
    · exact Or.inr (Or.inr (Or.inr (Or.inr (Or.inr rfl))))

/-- C2 (corrected): each CALM update appends the per-frame signal to the
noise buffer; on the update at which the buffer reaches NOISE_FRAMES,
noiseLevel becomes the arithmetic mean, the phase becomes WAIT recording
waitStart and a fresh random delay, and N identical samples of value v give
noiseLevel = v; the buffer however is NOT cleared at this transition — it
still holds all the samples. -/
theorem calm_calibration (s : BoxState) (maxV now u : ℝ)
    (hs : s.state = Phase.CALM) :
    ((s.noiseSamples ++ [maxV]).length < NOISE_FRAMES →
      step s maxV now u = { s with noiseSamples := s.noiseSamples ++ [maxV] }) ∧
    ((s.noiseSamples ++ [maxV]).length ≥ NOISE_FRAMES →
      (step s maxV now u).noiseLevel =
        (s.noiseSamples ++ [maxV]).sum / ((s.noiseSamples ++ [maxV]).length : ℝ) ∧
      (step s maxV now u).state = Phase.WAIT ∧
      (step s maxV now u).waitStart = now ∧
      (step s maxV now u).delay = randDelay u) ∧
    ((step s maxV now u).noiseSamples = s.noiseSamples ++ [maxV]) ∧
    (∀ v : ℝ, s.noiseSamples ++ [maxV] = List.replicate NOISE_FRAMES v →
      (step s maxV now u).noiseLevel = v) := by
  refine ⟨?_, ?_, ?_, ?_⟩
  · intro hlen
    exact step_calm_accum s maxV now u hs (by omega)
  · intro hlen
    rw [step_calm_full s maxV now u hs hlen]
    exact ⟨rfl, rfl, rfl, rfl⟩
  · by_cases hlen : (s.noiseSamples ++ [maxV]).length ≥ NOISE_FRAMES
    · rw [step_calm_full s maxV now u hs hlen]
    · rw [step_calm_accum s maxV now u hs hlen]
  · intro v hrep
    have hlen : (s.noiseSamples ++ [maxV]).length ≥ NOISE_FRAMES := by
      rw [hrep, List.length_replicate]
    rw [step_calm_full s maxV now u hs hlen]
    show (s.noiseSamples ++ [maxV]).sum / ((s.noiseSamples ++ [maxV]).length : ℝ) = v
    rw [hrep, List.sum_replicate, List.length_replicate, nsmul_eq_mul, NOISE_FRAMES]
    norm_num

/-- C2 witness: a CALM state with an empty buffer takes one sample and
stays in CALM with the sample buffered. -/
theorem calm_calibration_witness :
    calmState0.state = Phase.CALM ∧
    step calmState0 0 50 0 = { calmState0 with noiseSamples := [0] } :=
  ⟨rfl, (calm_calibration calmState0 0 50 0 rfl).1 (by
    simp [calmState0, sigState0, NOISE_FRAMES])⟩

/-- C3 (corrected): reactionTime is written only at the SIGNAL-to-MOVING
transition, as (onsetTime - signalTime) / 1000 (the millisecond difference
converted to seconds, not the raw difference); every other update leaves it
unchanged, and with a monotone clock (signalTime at or before now) the
written value is never negative. -/
theorem reactionTime_write_once_nonneg (s : BoxState) (maxV now u : ℝ) :
    (s.state = Phase.SIGNAL → maxV > startThreshold s →
      CONSEC_FRAMES ≤ s.moveCounter + 1 →
      (step s maxV now u).reactionTime = (now - s.signalTime) / 1000 ∧
      (step s maxV now u).moveStartTime = now ∧
      (step s maxV now u).state = Phase.MOVING ∧
      (s.signalTime ≤ now → 0 ≤ (step s maxV now u).reactionTime)) ∧
    (¬ (s.state = Phase.SIGNAL ∧ maxV > startThreshold s ∧
        CONSEC_FRAMES ≤ s.moveCounter + 1) →
      (step s maxV now u).reactionTime = s.reactionTime) := by
  constructor
  · intro hs ha hc
    rw [step_signal_above_fire s maxV now u hs ha hc]
    refine ⟨rfl, rfl, rfl, fun hle => ?_⟩
    have h1 : (0 : ℝ) ≤ now - s.signalTime := by linarith
    positivity
  · intro hnot
    cases hst : s.state
    case INIT => rw [step_init s maxV now u hst]
    case CALM =>
      by_cases hlen : (s.noiseSamples ++ [maxV]).length ≥ NOISE_FRAMES
      · rw [step_calm_full s maxV now u hst hlen]
      · rw [step_calm_accum s maxV now u hst hlen]
    case WAIT =>
      by_cases ht : now - s.waitStart > s.delay
      · rw [step_wait_fire s maxV now u hst ht]
      · rw [step_wait_hold s maxV now u hst ht]
    case SIGNAL =>
      by_cases ha : maxV > startThreshold s
      · by_cases hc : s.moveCounter + 1 ≥ CONSEC_FRAMES
        · exact absurd ⟨hst, ha, hc⟩ hnot
        · rw [step_signal_above_hold s maxV now u hst ha hc]
      · rw [step_signal_below s maxV now u hst ha]
    case MOVING =>
      by_cases ht : now - s.moveStartTime > 1000
      · rw [step_moving_to_result s maxV now u hst ht]
      · rw [step_moving_hold s maxV now u hst ht]
    case RESULT =>
      by_cases ht : now - s.moveStartTime > 3000
      · rw [step_result_reset s maxV now u hst ht]; rfl
      · rw [step_result_hold s maxV now u hst ht]

/-- C8 (corrected): in WAIT the machine transitions to SIGNAL exactly when
the elapsed time since waitStart is STRICTLY GREATER than the delay (at
elapsed time equal to the delay it stays in WAIT), the transition records
signalTime and resets the onset counter, and randDelay maps every draw
u in [0, 1) into [2000, 4000). -/
theorem wait_to_signal (s : BoxState) (maxV now u : ℝ) :
    (s.state = Phase.WAIT →
      ((step s maxV now u).state = Phase.SIGNAL ↔ now - s.waitStart > s.delay)) ∧
    (s.state = Phase.WAIT → now - s.waitStart > s.delay →
      (step s maxV now u).signalTime = now ∧ (step s maxV now u).moveCounter = 0) ∧
    (s.state = Phase.WAIT → ¬ now - s.waitStart > s.delay →
      step s maxV now u = s) ∧
    (∀ u' : ℝ, 0 ≤ u' → u' < 1 → 2000 ≤ randDelay u' ∧ randDelay u' < 4000) := by
  refine ⟨?_, ?_, ?_, ?_⟩
  · intro hs
    by_cases ht : now - s.waitStart > s.delay
    · rw [step_wait_fire s maxV now u hs ht]
      simpa using ht
    · rw [step_wait_hold s maxV now u hs ht, hs]
      simp [ht]
  · intro hs ht
    rw [step_wait_fire s maxV now u hs ht]
    exact ⟨rfl, rfl⟩
  · intro hs ht
    exact step_wait_hold s maxV now u hs ht
  · intro u' h0 h1
    constructor
    · rw [randDelay]; nlinarith
    · rw [randDelay]; nlinarith

/-- C9 (corrected): the RESULT branch loops back to CALM exactly when the
elapsed time since onset exceeds 3000 ms, by calling reset; reset clears the
noise buffer, the onset counter, the previous positions and the smoothing
history and sets the phase to CALM, but it does NOT clear the trial fields
signalTime, onsetTime, reactionTime, peakSpeed or noiseLevel — those keep
their values from the finished trial. -/
theorem result_to_calm_reset (s : BoxState) (maxV now u : ℝ) :
    (s.state = Phase.RESULT → now - s.moveStartTime > 3000 →
      step s maxV now u = reset s) ∧
    (s.state = Phase.RESULT → ¬ now - s.moveStartTime > 3000 →
      step s maxV now u = s) ∧
    (reset s).state = Phase.CALM ∧ (reset s).noiseSamples = [] ∧
    (reset s).moveCounter = 0 ∧ (reset s).prevR = none ∧ (reset s).prevL = none ∧
    (reset s).smoothR = 0 ∧ (reset s).smoothL = 0 ∧
    (reset s).signalTime = s.signalTime ∧
    (reset s).moveStartTime = s.moveStartTime ∧
    (reset s).reactionTime = s.reactionTime ∧
    (reset s).peakSpeed = s.peakSpeed ∧
    (reset s).noiseLevel = s.noiseLevel := by
  exact ⟨fun hs ht => step_result_reset s maxV now u hs ht,
    fun hs ht => step_result_hold s maxV now u hs ht,
    rfl, rfl, rfl, rfl, rfl, rfl, rfl, rfl, rfl, rfl, rfl, rfl⟩

/-- C10 (corrected): when CALM is entered through the RESULT loop-back the
previous wrist positions are null and the smoothing history is 0, and a CALM
update from a state with null previous positions appends exactly the sample
0; the INIT path does not have this property, because the INIT update itself
already stores that frame's wrist positions before entering CALM. -/
theorem calm_entry_after_reset (s : BoxState) (lm : ℕ → Point) (now u : ℝ) :
    (s.state = Phase.RESULT → now - s.moveStartTime > 3000 →
      ((update s lm now u).state = Phase.CALM ∧
       (update s lm now u).prevR = none ∧ (update s lm now u).prevL = none ∧
       (update s lm now u).smoothR = 0 ∧ (update s lm now u).smoothL = 0 ∧
       (update s lm now u).noiseSamples = [])) ∧
    (s.state = Phase.CALM → s.prevR = none → s.prevL = none →
      (update s lm now u).noiseSamples = s.noiseSamples ++ [0]) := by
  constructor
  · intro hs ht
    have hsv : (velState s lm now).state = Phase.RESULT := hs
    have htv : now - (velState s lm now).moveStartTime > 3000 := ht
    rw [update, step_result_reset _ _ _ _ hsv htv]
    exact ⟨rfl, rfl, rfl, rfl, rfl, rfl⟩
  · intro hs hpR hpL
    have hmax : frameMaxV s lm now = 0 := by
      rw [frameMaxV, frameR, frameL, hpR, hpL, velocity_none, velocity_none]
      exact max_self 0
    have hsv : (velState s lm now).state = Phase.CALM := hs
    rw [update, hmax]
    by_cases hlen :
        ((velState s lm now).noiseSamples ++ [(0 : ℝ)]).length ≥ NOISE_FRAMES
    · rw [step_calm_full _ _ _ _ hsv hlen]
      exact rfl
    · rw [step_calm_accum _ _ _ _ hsv hlen]
      exact rfl

/-! ## Counterexamples -/

/-- C2 counterexample: the CALM update that completes calibration moves to
WAIT with the noise buffer still holding all its samples — the buffer is not
cleared at the CALM-to-WAIT transition. -/
theorem calm_buffer_not_cleared_cex :
    (update calmState29 lmA 100 0).state = Phase.WAIT ∧
    (update calmState29 lmA 100 0).noiseSamples ≠ [] := by
  have hsv : (velState calmState29 lmA 100).state = Phase.CALM := rfl
  have hns : (velState calmState29 lmA 100).noiseSamples =
      List.replicate 29 0 := rfl
  have hlen : ((velState calmState29 lmA 100).noiseSamples ++
      [frameMaxV calmState29 lmA 100]).length ≥ NOISE_FRAMES := by
    rw [hns]
    simp [NOISE_FRAMES]
  rw [update, step_calm_full _ _ _ _ hsv hlen]
  refine ⟨rfl, ?_⟩
  intro h
  simp only [hns] at h
  simp at h

/-- C3 counterexample: a firing SIGNAL update at now = 1000 with signalTime
0 stores moveStartTime - signalTime = 1000 (milliseconds) but writes
reactionTime = 1 (seconds): reactionTime is not the raw difference
onsetTime - signalTime. -/
theorem reactionTime_not_raw_difference_cex :
    (update sigStateM lmB 1000 0).state = Phase.MOVING ∧
    (update sigStateM lmB 1000 0).moveStartTime - sigStateM.signalTime = 1000 ∧
    (update sigStateM lmB 1000 0).reactionTime = 1 ∧
    (1 : ℝ) ≠ 1000 := by
  have hR : frameR sigStateM lmB 1000 = ⟨1, pt2⟩ := by
    rw [frameR, show lmB 15 = pt2 from rfl, show sigStateM.prevR = some pt0 from rfl,
      velocity_some_pos pt2 pt0 sigStateM.smoothR ((1000 - sigStateM.lastTime) / 1000)
        (by norm_num [sigStateM, sigState0]),
      dist_pt2_pt0]
    norm_num [ALPHA, sigStateM, sigState0]
  have hL : frameL sigStateM lmB 1000 = ⟨0, pt0⟩ := by
    rw [frameL, show lmB 16 = pt0 from rfl, show sigStateM.prevL = none from rfl,
      velocity_none]
  have hmax : frameMaxV sigStateM lmB 1000 = 1 := by
    rw [frameMaxV, hR, hL]
    exact max_eq_left (by norm_num)
  have hsv : (velState sigStateM lmB 1000).state = Phase.SIGNAL := rfl
  have hnl : (velState sigStateM lmB 1000).noiseLevel = 0 := rfl
  have ha : (1 : ℝ) > startThreshold (velState sigStateM lmB 1000) := by
    rw [gt_iff_lt, startThreshold, hnl]
    rw [max_lt_iff]
    constructor
    · norm_num [START_FACTOR]
    · norm_num [MIN_START_VEL]
  have hmc : (velState sigStateM lmB 1000).moveCounter = 1 := rfl
  have hc : CONSEC_FRAMES ≤ (velState sigStateM lmB 1000).moveCounter + 1 := by
    rw [hmc, CONSEC_FRAMES]
  have hsig : (velState sigStateM lmB 1000).signalTime = 0 := rfl
  rw [update, hmax, step_signal_above_fire _ _ _ _ hsv ha hc]
  refine ⟨rfl, ?_, ?_, by norm_num⟩
  · show (1000 : ℝ) - sigStateM.signalTime = 1000
    rw [show sigStateM.signalTime = 0 from rfl]
    norm_num
  · show ((1000 : ℝ) - (velState sigStateM lmB 1000).signalTime) / 1000 = 1
    rw [hsig]
    norm_num

/-- C8 counterexample: in WAIT with waitStart 0 and delay 2000, the update
at now = 2000 has elapsed time equal to the delay (so elapsed is at least
the delay) yet the machine stays in WAIT: the exit test is strict. -/
theorem wait_boundary_not_signal_cex :
    (2000 : ℝ) - waitStateB.waitStart ≥ waitStateB.delay ∧
    (update waitStateB lmA 2000 0).state = Phase.WAIT ∧
    Phase.WAIT ≠ Phase.SIGNAL := by
  have hsv : (velState waitStateB lmA 2000).state = Phase.WAIT := rfl
  have hw : (velState waitStateB lmA 2000).waitStart = 0 := rfl
  have hd : (velState waitStateB lmA 2000).delay = 2000 := rfl
  have ht : ¬ (2000 : ℝ) - (velState waitStateB lmA 2000).waitStart >
      (velState waitStateB lmA 2000).delay := by
    rw [hw, hd]
    norm_num
  refine ⟨?_, ?_, by decide⟩
  · rw [show waitStateB.waitStart = 0 from rfl, show waitStateB.delay = 2000 from rfl]
    norm_num
  · rw [update, step_wait_hold _ _ _ _ hsv ht]
    exact hsv

/-- C9 counterexample: the RESULT-to-CALM loop-back keeps the finished
trial's peakSpeed 5 and reactionTime 7 — the trial record is not fully
reset. -/
theorem result_not_full_reset_cex :
    (update resultStateP lmA 5000 0).state = Phase.CALM ∧
    (update resultStateP lmA 5000 0).peakSpeed = 5 ∧
    (update resultStateP lmA 5000 0).reactionTime = 7 ∧
    (5 : ℝ) ≠ 0 ∧ (7 : ℝ) ≠ 0 := by
  have hsv : (velState resultStateP lmA 5000).state = Phase.RESULT := rfl
  have hm : (velState resultStateP lmA 5000).moveStartTime = 0 := rfl
  have ht : (5000 : ℝ) - (velState resultStateP lmA 5000).moveStartTime > 3000 := by
    rw [hm]
    norm_num
  rw [update, step_result_reset _ _ _ _ hsv ht]
  exact ⟨rfl, rfl, rfl, by norm_num, by norm_num⟩

/-- The state after the very first update of a fresh instance: the INIT
update stores the frame's wrist positions as previous positions and enters
CALM. -/
noncomputable def s1A : BoxState :=
  { state := Phase.CALM
    signalTime := 0
    moveStartTime := 0
    reactionTime := 0
    peakSpeed := 0
    prevR := some pt0
    prevL := some pt0
    smoothR := 0
    smoothL := 0
    noiseSamples := []
    noiseLevel := 0
    moveCounter := 0
    lastTime := 1000
    waitStart := 0
    delay := randDelay 0 }

/-- C10 counterexample: starting from a fresh instance, the INIT update at
time 1000 enters CALM with the wrist positions already stored, so the first
CALM update (right wrist moved to pt2 at time 2000) appends the nonzero
sample 1, not 0. -/
theorem init_entry_first_sample_nonzero_cex :
    (update (initState 0 0) lmA 1000 0).state = Phase.CALM ∧
    (update (update (initState 0 0) lmA 1000 0) lmB 2000 0).noiseSamples = [1] ∧
    (1 : ℝ) ≠ 0 := by
  have h1 : update (initState 0 0) lmA 1000 0 = s1A := rfl
  refine ⟨by rw [h1]; rfl, ?_, by norm_num⟩
  rw [h1]
  have hR : frameR s1A lmB 2000 = ⟨1, pt2⟩ := by
    rw [frameR, show lmB 15 = pt2 from rfl, show s1A.prevR = some pt0 from rfl,
      velocity_some_pos pt2 pt0 s1A.smoothR ((2000 - s1A.lastTime) / 1000)
        (by norm_num [s1A]),
      dist_pt2_pt0]
    norm_num [ALPHA, s1A]
  have hL : frameL s1A lmB 2000 = ⟨0, pt0⟩ := by
    rw [frameL, show lmB 16 = pt0 from rfl, show s1A.prevL = some pt0 from rfl,
      velocity_some_pos pt0 pt0 s1A.smoothL ((2000 - s1A.lastTime) / 1000)
        (by norm_num [s1A]),
      dist_pt0_pt0]
    norm_num [ALPHA, s1A]
  have hmax : frameMaxV s1A lmB 2000 = 1 := by
    rw [frameMaxV, hR, hL]
    exact max_eq_left (by norm_num)
  have hsv : (velState s1A lmB 2000).state = Phase.CALM := rfl
  have hns : (velState s1A lmB 2000).noiseSamples = [] := rfl
  have hlen : ¬ ((velState s1A lmB 2000).noiseSamples ++ [(1 : ℝ)]).length ≥
      NOISE_FRAMES := by
    rw [hns]
    simp [NOISE_FRAMES]
  rw [update, hmax, step_calm_accum _ _ _ _ hsv hlen]
  exact rfl

end SimpleBoxing
